import Mathlib

/-!
Shallow embedding of the region-bundle resolution and normalization layer of
the slopelabs dashboard (`lib/server/regionData.ts`, types from
`types/core.ts`).

Modelling conventions:
* A file on disk is a `FileState α`: `absent` (no file), `malformed` (the file
  exists but `JSON.parse` / CSV parsing throws), or `parsed v` (the file exists
  and parses to `v`).  `readJsonIfPresent` / `readCsvIfPresent` in the source
  catch every read or parse error and return `null`; in the model they map
  `absent` and `malformed` to `none`.
* JavaScript objects used as string-keyed records are modelled as
  insertion-ordered association lists `List (String × _)` (object keys are
  unique and `Object.entries` iterates in insertion order for the non-numeric
  keys used here).
* JavaScript values that may fail an `Array.isArray` check are wrapped in
  `RawVal`; optional object fields are `Option`s.
* The wall clock (`new Date().toISOString()`) is passed in explicitly as a
  `now : String` argument.
* String operations (`toLowerCase`, `trim`, the `\s` class) are modelled over
  the ASCII range, which covers every string the loader manipulates.
* File reads are counted: loaders return their result paired with the number
  of attempted disk reads (each `fs.readFile` call counts one, including reads
  of absent files; `readJsonIfPresent(null)` performs none).
-/

inductive FileState (α : Type) where
  | absent : FileState α
  | malformed : FileState α
  | parsed : α → FileState α

/-- Model of `readJsonIfPresent`: a read or parse failure yields `null`. -/
def readJsonIfPresent {α : Type} : FileState α → Option α
  | FileState.parsed v => some v
  | _ => none

/-- Model of `readCsvIfPresent`: identical error contract to `readJsonIfPresent`. -/
def readCsvIfPresent {α : Type} : FileState α → Option α
  | FileState.parsed v => some v
  | _ => none

/-- ASCII portion of the JavaScript whitespace class used by the regex and by trim. -/
def isJsWs (c : Char) : Bool :=
  c == ' ' || c == '\t' || c == '\n' || c == '\x0b' || c == '\x0c' || c == '\r'

/-- One pass of `replace` with the whitespace-run regex: each maximal run of
whitespace becomes a single space.  The flag records whether the previous
character belonged to a whitespace run already emitted. -/
def collapseGo : Bool → List Char → List Char
  | _, [] => []
  | prevWs, c :: rest =>
    if isJsWs c then
      if prevWs then collapseGo true rest else ' ' :: collapseGo true rest
    else c :: collapseGo false rest

/-- Model of `String.prototype.trim`: drop whitespace from both ends. -/
def trimEnds (l : List Char) : List Char :=
  ((l.dropWhile isJsWs).reverse.dropWhile isJsWs).reverse

/-- First two stages of `normalizeRegion`: `toLowerCase` then the
underscore-to-space `replace`. -/
def lowerSep (l : List Char) : List Char :=
  (l.map Char.toLower).map (fun c => if c == '_' then ' ' else c)

/-- Model of `normalizeRegion` on the character list of the coerced string:
lowercase, underscores to spaces, whitespace runs to single spaces, trim. -/
def normalizeRegionChars (l : List Char) : List Char :=
  trimEnds (collapseGo false (lowerSep l))

/-- Model of `normalizeRegion`.  The source coerces its argument with
`String(value ?? '')`; callers pass `none` for a missing or null tag. -/
def normalizeRegion (value : Option String) : String :=
  String.mk (normalizeRegionChars (value.getD "").data)

/-- Value of one CSV cell (`string | number | null` in the source). -/
inductive CellVal where
  | str : String → CellVal
  | num : Int → CellVal
  | null : CellVal
deriving DecidableEq, Repr

/-- Coercion of a possibly-missing CSV cell to the `String(value ?? '')` input
of `normalizeRegion`: a missing or null cell behaves like the empty string. -/
def jsCell : Option CellVal → Option String
  | none => none
  | some CellVal.null => none
  | some (CellVal.str s) => some s
  | some (CellVal.num n) => some (toString n)

/-- A parsed CSV row (`WeatherStationRow`), keyed by the header columns. -/
abbrev WeatherStationRow : Type := List (String × CellVal)

/-- Elevation-band danger level (`DangerLevel`). -/
inductive DangerLevel where
  | low | moderate | considerable | high | extreme
deriving DecidableEq, Repr

/-- Danger rating per elevation band (`Record<ElevationBand, DangerLevel>`). -/
structure DangerRatings where
  above_treeline : DangerLevel
  treeline : DangerLevel
  below_treeline : DangerLevel
deriving DecidableEq, Repr

/-- One avalanche-problem entry of a forecast document.  The source field
named `where` is called `whereBands` here because `where` is reserved. -/
structure AvalancheProblem where
  type : String
  likelihood : String
  size : String
  whereBands : List String
deriving DecidableEq, Repr

/-- Structured danger-rating document (`ForecastJSON`). -/
structure ForecastJSON where
  dateIssued : String
  region : String
  dangerRatings : DangerRatings
  problems : List AvalancheProblem
  summary : String
deriving DecidableEq, Repr

/-- Free-form key/value narrative (`Record<string, unknown>`); the loader never
inspects the values, so they are modelled as strings. -/
abbrev SummaryDoc : Type := List (String × String)

/-- Avalanche observation record.  Numeric ids are modelled as strings; only
the `region` tag is ever inspected by the loader. -/
structure AvalancheObservation where
  id : Option String := none
  region : Option String := none
  date : Option String := none
  location : Option String := none
  elevationBand : Option String := none
  type : Option String := none
  size : Option String := none
  notes : Option String := none
deriving DecidableEq, Repr

/-- One named numeric series of a time-series payload. -/
structure TimeseriesSeries where
  name : String
  values : List Int
  type : Option String := none
  yAxis : Option String := none
deriving DecidableEq, Repr

/-- One pre-rendered table of a band-keyed summary map (`BandSummaryTable`). -/
structure BandSummaryTable where
  columns : List String
  rows : List WeatherStationRow
  metadata : Option (List (String × String)) := none
deriving DecidableEq, Repr

/-- Station time-series entry (`StationTimeseriesEntry`). -/
structure StationTimeseriesEntry where
  station_id : String
  station_name : Option String := none
  x : List String
  series : List TimeseriesSeries
  metadata : Option (List (String × String)) := none
deriving DecidableEq, Repr

/-- Model time-series entry (`ModelTimeseriesEntry`). -/
structure ModelTimeseriesEntry where
  variable_name : String
  level : String
  x : List String
  series : List TimeseriesSeries
  metadata : Option (List (String × String)) := none
deriving DecidableEq, Repr

/-- A JSON value sitting where the loader expects an array: either really an
array (passing `Array.isArray`) or some other value. -/
inductive RawVal (α : Type) where
  | arr : List α → RawVal α
  | nonArray : RawVal α
deriving DecidableEq, Repr

/-- Legacy single-block time-series payload (`TimeseriesPayload`). -/
structure TimeseriesPayload where
  x : List String
  series : List TimeseriesSeries
deriving DecidableEq, Repr

/-- Legacy single model table (`ModelTablePayload`). -/
structure ModelTablePayload where
  title : Option String := none
  columns : List String
  rows : List WeatherStationRow
  metadata : Option (List (String × String)) := none
deriving DecidableEq, Repr

/-- Parsed per-region structured summary file (`RegionSummaryFile`). -/
structure RegionSummaryFile where
  region : Option String := none
  run_time_utc : Option String := none
  version : Option String := none
  tiles_base : Option String := none
  quicklook_png : Option String := none
  forecast : Option ForecastJSON := none
  summary : Option SummaryDoc := none
  avalanches : Option (List AvalancheObservation) := none
  stations : Option (List (String × RawVal BandSummaryTable)) := none
  model : Option (List (String × RawVal BandSummaryTable)) := none
deriving DecidableEq, Repr

/-- Parsed per-region structured time-series file (`RegionTimeseriesFile`). -/
structure RegionTimeseriesFile where
  region : Option String := none
  generated_at : Option String := none
  stations : Option (List (String × RawVal StationTimeseriesEntry)) := none
  model : Option (List (String × RawVal ModelTimeseriesEntry)) := none
deriving DecidableEq, Repr

/-- Parsed legacy consolidated bundle file (`RegionBundleJSON`). -/
structure RegionBundleJSON where
  region : Option String := none
  run_time_utc : Option String := none
  version : Option String := none
  tiles_base : Option String := none
  quicklook_png : Option String := none
  forecast : Option ForecastJSON := none
  summary : Option SummaryDoc := none
  weatherStations : Option (List WeatherStationRow) := none
  avalanches : Option (List AvalancheObservation) := none
  timeseries : Option TimeseriesPayload := none
  modelTable : Option ModelTablePayload := none
deriving DecidableEq, Repr

/-- Fully-defaulted artifact locators of a normalized manifest. -/
structure Artifacts where
  forecast_json : String
  summary_json : String
  tiles_base : String
  station_parquet : Option String := none
  quicklook_png : Option String := none
deriving DecidableEq, Repr

/-- Normalized manifest (`Manifest`). -/
structure Manifest where
  region : String
  run_time_utc : String
  version : String
  artifacts : Artifacts
deriving DecidableEq, Repr

/-- Artifact locators as read from disk, every field possibly missing
(`Partial<Manifest>['artifacts']`). -/
structure RawArtifacts where
  forecast_json : Option String := none
  summary_json : Option String := none
  tiles_base : Option String := none
  station_parquet : Option String := none
  quicklook_png : Option String := none
deriving DecidableEq, Repr

/-- Manifest as read from disk (`Partial<Manifest>`); `region` is never read
by `withArtifactDefaults`, so it is not modelled. -/
structure RawManifest where
  run_time_utc : Option String := none
  version : Option String := none
  artifacts : Option RawArtifacts := none
deriving DecidableEq, Repr

/-- The canonical region bundle (`RegionBundle`). -/
structure RegionBundle where
  region : String
  manifest : Manifest
  forecast : Option ForecastJSON
  summary : Option SummaryDoc
  avalanches : List AvalancheObservation
  stationSummary : List (String × List BandSummaryTable)
  stationTimeseries : List (String × List StationTimeseriesEntry)
  modelSummary : List (String × List BandSummaryTable)
  modelTimeseries : List (String × List ModelTimeseriesEntry)
deriving DecidableEq, Repr

/-- The three canonical elevation-band keys (`BANDS`). -/
def BANDS : List String := ["above_treeline", "treeline", "below_treeline"]

/-- The `Array.isArray(value) ? value : []` coercion applied to one entry. -/
def coerceBandEntry {α : Type} (kv : String × RawVal α) : String × List α :=
  (kv.1, match kv.2 with
    | RawVal.arr xs => xs
    | RawVal.nonArray => [])

/-- The body of the `for (const band of BANDS)` loop: add a missing band with
an empty-list default (an assigned array value is always truthy, so only a
genuinely absent key triggers the default). -/
def ensureBandStep {α : Type} (acc : List (String × List α)) (band : String) :
    List (String × List α) :=
  if (List.lookup band acc).isSome then acc else acc ++ [(band, [])]

/-- Model of `ensureBandSummary`: coerce every present value to an array and
make sure each canonical band key is present, defaulting to `[]`. -/
def ensureBandSummary (map : Option (List (String × RawVal BandSummaryTable))) :
    List (String × List BandSummaryTable) :=
  let result := match map with
    | none => []
    | some m => m.map coerceBandEntry
  BANDS.foldl ensureBandStep result

/-- Model of `ensureBandTimeseries`: same body as `ensureBandSummary`, generic
in the entry type. -/
def ensureBandTimeseries {T : Type} (map : Option (List (String × RawVal T))) :
    List (String × List T) :=
  let result := match map with
    | none => []
    | some m => m.map coerceBandEntry
  BANDS.foldl ensureBandStep result

/-- Model of `withArtifactDefaults`: synthesize a full manifest from a possibly
missing, possibly partial one.  `now` stands for `new Date().toISOString()`. -/
def withArtifactDefaults (region : String) (manifest : Option RawManifest)
    (now : String) : Manifest :=
  let artifacts := (manifest.bind RawManifest.artifacts).getD {}
  { region := region
    run_time_utc := (manifest.bind RawManifest.run_time_utc).getD now
    version := (manifest.bind RawManifest.version).getD "v0"
    artifacts := {
      forecast_json := artifacts.forecast_json.getD ("/data/" ++ region ++ "/forecast.json")
      summary_json := artifacts.summary_json.getD ("/data/" ++ region ++ "/summary.json")
      tiles_base := artifacts.tiles_base.getD "https://tile.openstreetmap.org/"
      station_parquet := artifacts.station_parquet
      quicklook_png := artifacts.quicklook_png } }

/-- Shape of a parsed avalanche file before `extractAvalancheArray`: JSON null,
a proper array, an object carrying an `items` array, or anything else. -/
inductive AvSource where
  | jnull : AvSource
  | jarr : List AvalancheObservation → AvSource
  | jobjItems : List AvalancheObservation → AvSource
  | jother : AvSource
deriving DecidableEq, Repr

/-- Model of `extractAvalancheArray`. -/
def extractAvalancheArray : Option AvSource → List AvalancheObservation
  | none => []
  | some AvSource.jnull => []
  | some (AvSource.jarr xs) => xs
  | some (AvSource.jobjItems xs) => xs
  | some AvSource.jother => []

/-- Model of `String.prototype.toLowerCase` over the ASCII range, character by
character. -/
def strToLower (s : String) : String :=
  String.mk (s.data.map Char.toLower)

/-- First `n` characters of a string. -/
def strTake (s : String) (n : Nat) : String :=
  String.mk (s.data.take n)

/-- String without its first `n` characters (`String.prototype.slice`). -/
def strDrop (s : String) (n : Nat) : String :=
  String.mk (s.data.drop n)

/-- Test mirroring `String.prototype.startsWith` at the character level. -/
def strStartsWith (s pre : String) : Bool :=
  List.isPrefixOf pre.data s.data

/-- Model of the regex test `/^https?:/i`. -/
def isHttpUrl (p : String) : Bool :=
  strToLower (strTake p 5) == "http:" || strToLower (strTake p 6) == "https:"

/-- Split a character list into the segments between `/` separators,
accumulating the current segment in reverse. -/
def splitSlashAux (cur : List Char) : List Char → List (List Char)
  | [] => [cur.reverse]
  | c :: rest =>
    if c == '/' then cur.reverse :: splitSlashAux [] rest
    else splitSlashAux (c :: cur) rest

/-- POSIX path normalization over segments, as performed by Node's
`path.join`/`path.normalize`: empty and `.` segments are dropped, and a `..`
segment pops the preceding segment when one is available.  The working
directory is modelled as the path root, so a `..` that climbs past it is kept
literally where the real absolute path would pop into the parent of the
working directory — in both cases the result leaves the `public/` tree. -/
def normSegsAux (stack : List (List Char)) : List (List Char) → List (List Char)
  | [] => stack.reverse
  | seg :: rest =>
    if seg = [] ∨ seg = ['.'] then normSegsAux stack rest
    else if seg = ['.', '.'] then
      match stack with
      | [] => normSegsAux [['.', '.']] rest
      | top :: stack2 =>
        if top = ['.', '.'] then normSegsAux (seg :: stack) rest
        else normSegsAux stack2 rest
    else normSegsAux (seg :: stack) rest

/-- Join path segments with `/` separators. -/
def joinWith (sep : Char) : List (List Char) → List Char
  | [] => []
  | [w] => w
  | w :: v :: rest => w ++ sep :: joinWith sep (v :: rest)

/-- Model of `path.join(process.cwd(), 'public', cleaned)` with the working
directory as the path root: concatenate the non-empty parts with a slash,
split into segments, normalize (dropping `.`/empty segments and resolving
`..`), and rejoin; Node returns `"."` when nothing remains. -/
def joinPublic (cleaned : String) : String :=
  let joined :=
    if cleaned == "" then "public".data
    else "public".data ++ '/' :: cleaned.data
  match normSegsAux [] (splitSlashAux [] joined) with
  | [] => "."
  | seg :: segs => String.mk (joinWith '/' (seg :: segs))

/-- Model of `resolvePublicAsset`: strip one leading slash and resolve the
locator against the local `public/` directory with `path.join` (including its
dot-segment normalization, so a `..` segment can climb out of `public/`).
Note that the JavaScript falsiness check also rejects the empty string. -/
def resolvePublicAsset (assetPath : Option String) : Option String :=
  match assetPath with
  | none => none
  | some p =>
    if p == "" then none
    else if isHttpUrl p then none
    else some (joinPublic (if strStartsWith p "/" then strDrop p 1 else p))

/-- Per-region view of the files the loaders may touch.  Distinct typed reads
of the same on-disk path (for example `data/<region>/summary.json` read as a
structured file by `loadStructuredBundle` and as a free-form object by
`loadSummary`) are modelled as separate slots; no theorem needs them coupled.
Asset maps cover the paths produced by `resolvePublicAsset`. -/
structure RegionFS where
  summaryJson : FileState RegionSummaryFile
  timeseriesJson : FileState RegionTimeseriesFile
  bundleJson : FileState RegionBundleJSON
  manifestJson : FileState RawManifest
  sharedAvalanches : FileState AvSource
  regionalAvalanches : FileState AvSource
  sharedWeatherCsv : FileState (List WeatherStationRow)
  regionalWeatherCsv : FileState (List WeatherStationRow)
  forecastAssets : String → FileState ForecastJSON
  summaryAssets : String → FileState SummaryDoc

/-- A filesystem with no data files at all. -/
def emptyRegionFS : RegionFS where
  summaryJson := FileState.absent
  timeseriesJson := FileState.absent
  bundleJson := FileState.absent
  manifestJson := FileState.absent
  sharedAvalanches := FileState.absent
  regionalAvalanches := FileState.absent
  sharedWeatherCsv := FileState.absent
  regionalWeatherCsv := FileState.absent
  forecastAssets := fun _ => FileState.absent
  summaryAssets := fun _ => FileState.absent

/-- Model of `loadStructuredBundle`, paired with its read count.  The required
file is `summary.json`; `timeseries.json` is optional. -/
def loadStructuredBundleR (region : String) (fs : RegionFS) (now : String) :
    Option RegionBundle × Nat :=
  match readJsonIfPresent fs.summaryJson with
  | none => (none, 1)
  | some summaryData =>
    let timeseriesData := readJsonIfPresent fs.timeseriesJson
    let manifest := withArtifactDefaults region (some {
      run_time_utc := summaryData.run_time_utc
      version := summaryData.version
      artifacts := some {
        forecast_json := some (match summaryData.forecast with
          | some _ => "/data/" ++ region ++ "/summary.json"
          | none => "/data/" ++ region ++ "/forecast.json")
        summary_json := some ("/data/" ++ region ++ "/summary.json")
        tiles_base := some (summaryData.tiles_base.getD "https://tile.openstreetmap.org/")
        quicklook_png := summaryData.quicklook_png } }) now
    (some {
      region := region
      manifest := manifest
      forecast := summaryData.forecast
      summary := summaryData.summary
      avalanches := summaryData.avalanches.getD []
      stationSummary := ensureBandSummary summaryData.stations
      stationTimeseries := ensureBandTimeseries (timeseriesData.bind RegionTimeseriesFile.stations)
      modelSummary := ensureBandSummary summaryData.model
      modelTimeseries := ensureBandTimeseries (timeseriesData.bind RegionTimeseriesFile.model) }, 2)

/-- Model of `loadBundleJson` (the legacy consolidated-bundle loader), paired
with its read count.  Flat legacy blocks are remapped under the synthetic
`legacy` / `legacy_model` pseudo-bands, exactly as in the source. -/
def loadBundleJsonR (region : String) (fs : RegionFS) (now : String) :
    Option RegionBundle × Nat :=
  match readJsonIfPresent fs.bundleJson with
  | none => (none, 1)
  | some payload =>
    let manifest := withArtifactDefaults region (some {
      run_time_utc := payload.run_time_utc
      version := payload.version
      artifacts := some {
        forecast_json := some ("/data/" ++ region ++ "/bundle.json")
        summary_json := some ("/data/" ++ region ++ "/bundle.json")
        tiles_base := some (payload.tiles_base.getD "https://tile.openstreetmap.org/")
        quicklook_png := payload.quicklook_png } }) now
    (some {
      region := region
      manifest := manifest
      forecast := payload.forecast
      summary := payload.summary
      avalanches := payload.avalanches.getD []
      stationSummary := ensureBandSummary (match payload.weatherStations with
        | some (w :: ws) => some [("legacy", RawVal.arr [{
            columns := w.map Prod.fst
            rows := w :: ws
            metadata := some [("note", "legacy bundle rows")] }])]
        | _ => none)
      stationTimeseries := ensureBandTimeseries (payload.timeseries.map (fun ts =>
        [("legacy", RawVal.arr [{
            station_id := "legacy"
            station_name := some "Legacy"
            x := ts.x
            series := ts.series }])]))
      modelSummary := ensureBandSummary (payload.modelTable.map (fun mt =>
        [("legacy", RawVal.arr [{
            columns := mt.columns
            rows := mt.rows
            metadata := mt.metadata }])]))
      modelTimeseries := ensureBandTimeseries (payload.timeseries.map (fun ts =>
        [("legacy_model", RawVal.arr [{
            variable_name := "legacy"
            level := "legacy"
            x := ts.x
            series := ts.series }])])) }, 1)

/-- Model of `loadAvalanches`: union of the shared and the per-region file,
then a filter by normalized region tag.  Always attempts two reads. -/
def loadAvalanchesR (region : String) (fs : RegionFS) :
    List AvalancheObservation × Nat :=
  let want := normalizeRegion (some region)
  let shared := extractAvalancheArray (readJsonIfPresent fs.sharedAvalanches)
  let regional := extractAvalancheArray (readJsonIfPresent fs.regionalAvalanches)
  ((shared ++ regional).filter
    (fun entry => normalizeRegion entry.region == want), 2)

/-- Suffix test mirroring `String.prototype.endsWith` at the character level:
the last `suffixStr.length` characters of `s` must equal `suffixStr`. -/
def strEndsWith (s suffixStr : String) : Bool :=
  s.data.drop (s.data.length - suffixStr.data.length) == suffixStr.data

/-- Path of the shared weather CSV relative to the repository root. -/
def sharedWeatherPath : String := "public/data/shared/weather_station.csv"

/-- Path of the per-region weather CSV relative to the repository root. -/
def regionalWeatherPath (region : String) : String :=
  "public/data/" ++ region ++ "/weather_station.csv"

/-- Model of `loadWeatherStations`: the candidate loop over the shared CSV and
then the per-region CSV, unrolled.  A candidate that parses returns its
region-filtered rows when the filter is non-empty or the candidate path ends
with `<region>/weather_station.csv`; otherwise the loop continues. -/
def loadWeatherStationsR (region : String) (fs : RegionFS) :
    List WeatherStationRow × Nat :=
  let want := normalizeRegion (some region)
  let fromRegional : Nat → List WeatherStationRow × Nat := fun reads =>
    match readCsvIfPresent fs.regionalWeatherCsv with
    | none => ([], reads + 1)
    | some rows =>
      let filtered := rows.filter
        (fun row => normalizeRegion (jsCell (List.lookup "region" row)) == want)
      if filtered.length != 0
          || strEndsWith (regionalWeatherPath region) (region ++ "/weather_station.csv")
      then (filtered, reads + 1)
      else ([], reads + 1)
  match readCsvIfPresent fs.sharedWeatherCsv with
  | none => fromRegional 1
  | some rows =>
    let filtered := rows.filter
      (fun row => normalizeRegion (jsCell (List.lookup "region" row)) == want)
    if filtered.length != 0
        || strEndsWith sharedWeatherPath (region ++ "/weather_station.csv")
    then (filtered, 1)
    else fromRegional 1

/-- Model of `loadSummary`: resolve the manifest locator, then read it; a
remote or empty locator is never read. -/
def loadSummaryR (manifest : Manifest) (fs : RegionFS) : Option SummaryDoc × Nat :=
  match resolvePublicAsset (some manifest.artifacts.summary_json) with
  | none => (none, 0)
  | some abs => (readJsonIfPresent (fs.summaryAssets abs), 1)

/-- Model of `loadForecast`: resolve the manifest locator, then read it. -/
def loadForecastR (manifest : Manifest) (fs : RegionFS) : Option ForecastJSON × Nat :=
  match resolvePublicAsset (some manifest.artifacts.forecast_json) with
  | none => (none, 0)
  | some abs => (readJsonIfPresent (fs.forecastAssets abs), 1)

/-- Model of `loadManifest`: read the per-region manifest and apply defaults. -/
def loadManifestR (region : String) (fs : RegionFS) (now : String) : Manifest × Nat :=
  (withArtifactDefaults region (readJsonIfPresent fs.manifestJson) now, 1)

/-- The discrete-artifact path of `loadRegionBundle` (the inline block after
both structured and legacy loaders have declined), as a named helper. -/
def loadDiscreteBundleR (region : String) (fs : RegionFS) (now : String) :
    RegionBundle × Nat :=
  let manifest := (loadManifestR region fs now).1
  let forecast := (loadForecastR manifest fs).1
  let summary := (loadSummaryR manifest fs).1
  let avalanches := (loadAvalanchesR region fs).1
  let weatherStations := (loadWeatherStationsR region fs).1
  let legacySummary := match weatherStations with
    | w :: ws => ensureBandSummary (some [("legacy", RawVal.arr [{
        columns := w.map Prod.fst
        rows := w :: ws }])])
    | [] => ensureBandSummary none
  ({ region := region
     manifest := manifest
     forecast := forecast
     summary := summary
     avalanches := avalanches
     stationSummary := legacySummary
     stationTimeseries := ensureBandTimeseries none
     modelSummary := ensureBandSummary none
     modelTimeseries := ensureBandTimeseries none },
   (loadManifestR region fs now).2 + (loadForecastR manifest fs).2
     + (loadSummaryR manifest fs).2 + (loadAvalanchesR region fs).2
     + (loadWeatherStationsR region fs).2)

/-- The uncached fallthrough of `loadRegionBundle`: structured loader first,
then the legacy-bundle loader, then the discrete-artifact path. -/
def resolveRegionBundleR (region : String) (fs : RegionFS) (now : String) :
    RegionBundle × Nat :=
  match (loadStructuredBundleR region fs now).1 with
  | some structured => (structured, (loadStructuredBundleR region fs now).2)
  | none =>
    match (loadBundleJsonR region fs now).1 with
    | some preprocessed =>
      (preprocessed, (loadStructuredBundleR region fs now).2 + (loadBundleJsonR region fs now).2)
    | none =>
      ((loadDiscreteBundleR region fs now).1,
       (loadStructuredBundleR region fs now).2 + (loadBundleJsonR region fs now).2
         + (loadDiscreteBundleR region fs now).2)

/-- Insert-or-replace on the cache association list (`Map.prototype.set`). -/
def cacheSet (key : String) (value : RegionBundle) :
    List (String × RegionBundle) → List (String × RegionBundle)
  | [] => [(key, value)]
  | (k, v) :: rest =>
    if k == key then (k, value) :: rest else (k, v) :: cacheSet key value rest

/-- Model of `loadRegionBundle` with the process-wide cache passed explicitly.
`shouldCache` stands for `process.env.NODE_ENV === 'production'`.  Returns the
bundle, the cache after the call, and the number of attempted disk reads. -/
def loadRegionBundleR (shouldCache : Bool) (regionParam : String) (fs : RegionFS)
    (now : String) (cache : List (String × RegionBundle)) :
    RegionBundle × List (String × RegionBundle) × Nat :=
  let region := strToLower regionParam
  match (if shouldCache then List.lookup region cache else none) with
  | some cached => (cached, cache, 0)
  | none =>
    let resolved := resolveRegionBundleR region fs now
    (resolved.1, (if shouldCache then cacheSet region resolved.1 cache else cache), resolved.2)

/-- Re-wrap a normalized band map as the raw parsed shape, for re-feeding a
normalizer output to the normalizer. -/
def bandMapToRaw {α : Type} (m : List (String × List α)) : List (String × RawVal α) :=
  m.map (fun kv => (kv.1, RawVal.arr kv.2))

/-- Re-wrap a normalized manifest as the raw parsed shape. -/
def manifestToRaw (m : Manifest) : RawManifest :=
  { run_time_utc := some m.run_time_utc
    version := some m.version
    artifacts := some {
      forecast_json := some m.artifacts.forecast_json
      summary_json := some m.artifacts.summary_json
      tiles_base := some m.artifacts.tiles_base
      station_parquet := m.artifacts.station_parquet
      quicklook_png := m.artifacts.quicklook_png } }

/-- Filesystem for the C1 counterexample: no structured files, one legacy
bundle whose flat weather-station rows force the synthetic legacy band. -/
def fsLegacyC1 : RegionFS :=
  { emptyRegionFS with
    bundleJson := FileState.parsed
      { weatherStations := some [[("region", CellVal.str "alpine")]] } }

/-- The bundle synthesized for a region with no data files at all. -/
def defaultRegionBundle (region now : String) : RegionBundle :=
  { region := region
    manifest := {
      region := region
      run_time_utc := now
      version := "v0"
      artifacts := {
        forecast_json := "/data/" ++ region ++ "/forecast.json"
        summary_json := "/data/" ++ region ++ "/summary.json"
        tiles_base := "https://tile.openstreetmap.org/" } }
    forecast := none
    summary := none
    avalanches := []
    stationSummary := [("above_treeline", []), ("treeline", []), ("below_treeline", [])]
    stationTimeseries := [("above_treeline", []), ("treeline", []), ("below_treeline", [])]
    modelSummary := [("above_treeline", []), ("treeline", []), ("below_treeline", [])]
    modelTimeseries := [("above_treeline", []), ("treeline", []), ("below_treeline", [])] }

/-- Structured summary file present in the C2 witness filesystem. -/
def structuredSampleC2 : RegionSummaryFile :=
  { region := some "alpine", version := some "v7" }

/-- Legacy bundle file present in the C2 witness filesystem. -/
def bundleSampleC2 : RegionBundleJSON :=
  { region := some "alpine", version := some "legacy9" }

/-- Filesystem where both a structured summary file and a legacy bundle file
exist and parse for the same region. -/
def fsBothC2 : RegionFS :=
  { emptyRegionFS with
    summaryJson := FileState.parsed structuredSampleC2
    bundleJson := FileState.parsed bundleSampleC2 }

/-- One on-disk file the resolver may consult, including the asset paths the
manifest locators can resolve to. -/
inductive DataSlot where
  | structuredSummary : DataSlot
  | structuredTimeseries : DataSlot
  | legacyBundle : DataSlot
  | manifestFile : DataSlot
  | sharedAvalancheFile : DataSlot
  | regionalAvalancheFile : DataSlot
  | sharedWeatherFile : DataSlot
  | regionalWeatherFile : DataSlot
  | forecastAsset : String → DataSlot
  | summaryAsset : String → DataSlot

/-- Remove the file in the given slot. -/
def blankSlot (fs : RegionFS) : DataSlot → RegionFS
  | DataSlot.structuredSummary => { fs with summaryJson := FileState.absent }
  | DataSlot.structuredTimeseries => { fs with timeseriesJson := FileState.absent }
  | DataSlot.legacyBundle => { fs with bundleJson := FileState.absent }
  | DataSlot.manifestFile => { fs with manifestJson := FileState.absent }
  | DataSlot.sharedAvalancheFile => { fs with sharedAvalanches := FileState.absent }
  | DataSlot.regionalAvalancheFile => { fs with regionalAvalanches := FileState.absent }
  | DataSlot.sharedWeatherFile => { fs with sharedWeatherCsv := FileState.absent }
  | DataSlot.regionalWeatherFile => { fs with regionalWeatherCsv := FileState.absent }
  | DataSlot.forecastAsset p =>
    { fs with forecastAssets := fun q => if q == p then FileState.absent else fs.forecastAssets q }
  | DataSlot.summaryAsset p =>
    { fs with summaryAssets := fun q => if q == p then FileState.absent else fs.summaryAssets q }

/-- Corrupt the file in the given slot so that parsing it throws. -/
def spoilSlot (fs : RegionFS) : DataSlot → RegionFS
  | DataSlot.structuredSummary => { fs with summaryJson := FileState.malformed }
  | DataSlot.structuredTimeseries => { fs with timeseriesJson := FileState.malformed }
  | DataSlot.legacyBundle => { fs with bundleJson := FileState.malformed }
  | DataSlot.manifestFile => { fs with manifestJson := FileState.malformed }
  | DataSlot.sharedAvalancheFile => { fs with sharedAvalanches := FileState.malformed }
  | DataSlot.regionalAvalancheFile => { fs with regionalAvalanches := FileState.malformed }
  | DataSlot.sharedWeatherFile => { fs with sharedWeatherCsv := FileState.malformed }
  | DataSlot.regionalWeatherFile => { fs with regionalWeatherCsv := FileState.malformed }
  | DataSlot.forecastAsset p =>
    { fs with forecastAssets := fun q => if q == p then FileState.malformed else fs.forecastAssets q }
  | DataSlot.summaryAsset p =>
    { fs with summaryAssets := fun q => if q == p then FileState.malformed else fs.summaryAssets q }

/-- Shared avalanche file of the C6 witness: two records for the requested
region (in differing spellings) and one for another region. -/
def sharedAvyC6 : List AvalancheObservation :=
  [{ id := some "1", region := some "Alpine" },
   { id := some "2", region := some "valley" },
   { id := some "3", region := some "alpine" }]

/-- Per-region avalanche file of the C6 witness: one more matching record. -/
def regionalAvyC6 : List AvalancheObservation :=
  [{ id := some "4", region := some "ALPINE" }]

/-- Filesystem with both avalanche sources present. -/
def fsAvyC6 : RegionFS :=
  { emptyRegionFS with
    sharedAvalanches := FileState.parsed (AvSource.jarr sharedAvyC6)
    regionalAvalanches := FileState.parsed (AvSource.jarr regionalAvyC6) }

/-- Shared weather row tagged for the requested region. -/
def rowSharedC5 : WeatherStationRow :=
  [("region", CellVal.str "alpine"), ("station", CellVal.str "s1")]

/-- Per-region weather row tagged for the requested region. -/
def rowRegionalC5 : WeatherStationRow :=
  [("region", CellVal.str "alpine"), ("station", CellVal.str "s2")]

/-- Filesystem where both the shared and the per-region weather CSV exist and
each holds one row tagged for the requested region. -/
def fsWeatherC5 : RegionFS :=
  { emptyRegionFS with
    sharedWeatherCsv := FileState.parsed [rowSharedC5]
    regionalWeatherCsv := FileState.parsed [rowRegionalC5] }

/-- Manifest whose locators are remote URLs, for the C10 witness. -/
def remoteManifestC10 : Manifest :=
  { region := "alpine"
    run_time_utc := "t0"
    version := "v1"
    artifacts := {
      forecast_json := "https://cdn.example.com/forecast.json"
      summary_json := "HTTP://cdn.example.com/summary.json"
      tiles_base := "https://tile.openstreetmap.org/" } }

/-- Forecast document sitting outside the `public/` directory, for the C10
counterexample. -/
def escapeForecastC10 : ForecastJSON :=
  { dateIssued := "2026-01-01"
    region := "alpine"
    dangerRatings := {
      above_treeline := DangerLevel.low
      treeline := DangerLevel.low
      below_treeline := DangerLevel.low }
    problems := []
    summary := "outside public" }

/-- Manifest whose forecast locator climbs out of `public/` with a `..`
segment. -/
def escapeManifestC10 : Manifest :=
  { region := "alpine"
    run_time_utc := "t0"
    version := "v1"
    artifacts := {
      forecast_json := "../secret.json"
      summary_json := "/data/alpine/summary.json"
      tiles_base := "https://tile.openstreetmap.org/" } }

/-- Filesystem holding a parseable file at the escaped path `secret.json`,
which lies next to — not inside — the `public/` directory. -/
def fsEscapeC10 : RegionFS :=
  { emptyRegionFS with
    forecastAssets := fun q =>
      if q == "secret.json" then FileState.parsed escapeForecastC10 else FileState.absent }

/-- Drop trailing whitespace only. -/
def trimTrail (l : List Char) : List Char :=
  (l.reverse.dropWhile isJsWs).reverse

/-- Maximal non-whitespace tokens of a character list, with explicit fuel so
that the definition is structurally recursive. -/
def tokensFuel : Nat → List Char → List (List Char)
  | 0, _ => []
  | fuel + 1, l =>
    match l.dropWhile isJsWs with
    | [] => []
    | c :: rest =>
      (c :: rest.takeWhile (fun x => !isJsWs x))
        :: tokensFuel fuel (rest.dropWhile (fun x => !isJsWs x))

/-- Maximal non-whitespace tokens of a character list. -/
def tokensWs (l : List Char) : List (List Char) :=
  tokensFuel l.length l

/-- Join tokens with single spaces. -/
def joinTokens : List (List Char) → List Char
  | [] => []
  | [w] => w
  | w :: v :: rest => w ++ ' ' :: joinTokens (v :: rest)

/-- Case-folded, separator-split token list of a region string.  Two strings
differ only in letter case, underscore-versus-space separators, and
surrounding or repeated whitespace exactly when their token lists agree. -/
def regionTokens (s : String) : List (List Char) :=
  tokensWs (lowerSep s.data)

theorem lookup_append_of_none {α β : Type} [BEq α] {k : α} {l₁ l₂ : List (α × β)}
    (h : List.lookup k l₁ = none) : List.lookup k (l₁ ++ l₂) = List.lookup k l₂ := by
  induction l₁ with
  | nil => simp
  | cons p rest ih =>
    cases p with
    | mk a b =>
      by_cases hk : (k == a) = true
      · simp [List.lookup, hk] at h
      · simp only [List.cons_append, List.lookup, hk] at h ⊢
        exact ih h

theorem lookup_append_left {α β : Type} [BEq α] {k : α} {l₁ l₂ : List (α × β)}
    (h : (List.lookup k l₁).isSome) : List.lookup k (l₁ ++ l₂) = List.lookup k l₁ := by
  induction l₁ with
  | nil => simp at h
  | cons p rest ih =>
    cases p with
    | mk a b =>
      by_cases hk : (k == a) = true
      · simp only [List.cons_append, List.lookup, hk]
      · simp only [List.lookup, hk] at h
        simp only [List.cons_append, List.lookup, hk]
        exact ih h

theorem lookup_ensureBandStep_self {α : Type} (acc : List (String × List α)) (band : String) :
    (List.lookup band (ensureBandStep acc band)).isSome := by
  unfold ensureBandStep
  by_cases h : (List.lookup band acc).isSome
  · simp [h]
  · rw [Option.not_isSome_iff_eq_none] at h
    simp only [h, Option.isSome_none, Bool.false_eq_true, if_false]
    rw [lookup_append_of_none h]
    simp [List.lookup]

theorem lookup_ensureBandStep_mono {α : Type} {acc : List (String × List α)} {b : String}
    (band : String) (h : (List.lookup b acc).isSome) :
    (List.lookup b (ensureBandStep acc band)).isSome := by
  unfold ensureBandStep
  split
  · exact h
  · rw [lookup_append_left h]
    exact h

theorem lookup_foldl_preserve {α : Type} (bands : List String)
    (acc : List (String × List α)) (b : String) (h : (List.lookup b acc).isSome) :
    (List.lookup b (bands.foldl ensureBandStep acc)).isSome := by
  induction bands generalizing acc with
  | nil => exact h
  | cons band rest ih =>
    rw [List.foldl_cons]
    exact ih _ (lookup_ensureBandStep_mono band h)

theorem lookup_foldl_bands {α : Type} (bands : List String)
    (acc : List (String × List α)) (b : String) (hb : b ∈ bands) :
    (List.lookup b (bands.foldl ensureBandStep acc)).isSome := by
  induction bands generalizing acc with
  | nil => cases hb
  | cons band rest ih =>
    rw [List.foldl_cons]
    rcases List.mem_cons.mp hb with h | h
    · subst h
      exact lookup_foldl_preserve rest _ b (lookup_ensureBandStep_self acc b)
    · exact ih _ h

theorem foldl_bands_of_all_present {α : Type} (bands : List String)
    (acc : List (String × List α)) (h : ∀ b ∈ bands, (List.lookup b acc).isSome) :
    bands.foldl ensureBandStep acc = acc := by
  induction bands with
  | nil => rfl
  | cons band rest ih =>
    rw [List.foldl_cons]
    have hstep : ensureBandStep acc band = acc := by
      unfold ensureBandStep
      simp [h band (List.mem_cons_self band rest)]
    rw [hstep]
    exact ih (fun b hb => h b (List.mem_cons_of_mem band hb))

theorem coerce_toRaw {α : Type} (m : List (String × List α)) :
    (bandMapToRaw m).map coerceBandEntry = m := by
  induction m with
  | nil => rfl
  | cons kv rest ih =>
    cases kv with
    | mk k v => simp [bandMapToRaw, coerceBandEntry] at ih ⊢; exact ih

theorem ensureBandSummary_eq_timeseries
    (map : Option (List (String × RawVal BandSummaryTable))) :
    ensureBandSummary map = ensureBandTimeseries map := by
  unfold ensureBandSummary ensureBandTimeseries
  cases map <;> rfl

theorem bands_present_ensureBandTimeseries {T : Type}
    (map : Option (List (String × RawVal T))) (b : String) (hb : b ∈ BANDS) :
    (List.lookup b (ensureBandTimeseries map)).isSome := by
  unfold ensureBandTimeseries
  exact lookup_foldl_bands BANDS _ b hb

theorem bands_present_ensureBandSummary
    (map : Option (List (String × RawVal BandSummaryTable))) (b : String) (hb : b ∈ BANDS) :
    (List.lookup b (ensureBandSummary map)).isSome := by
  rw [ensureBandSummary_eq_timeseries]
  exact bands_present_ensureBandTimeseries map b hb

theorem ensureBandTimeseries_idem {T : Type} (map : Option (List (String × RawVal T))) :
    ensureBandTimeseries (some (bandMapToRaw (ensureBandTimeseries map)))
      = ensureBandTimeseries map := by
  conv_lhs => unfold ensureBandTimeseries
  simp only [coerce_toRaw]
  exact foldl_bands_of_all_present BANDS _
    (fun b hb => bands_present_ensureBandTimeseries map b hb)

theorem ensureBandSummary_idem (map : Option (List (String × RawVal BandSummaryTable))) :
    ensureBandSummary (some (bandMapToRaw (ensureBandSummary map))) = ensureBandSummary map := by
  rw [ensureBandSummary_eq_timeseries, ensureBandSummary_eq_timeseries]
  exact ensureBandTimeseries_idem map

theorem withArtifactDefaults_retract (region now now2 : String) (m : Option RawManifest) :
    withArtifactDefaults region (some (manifestToRaw (withArtifactDefaults region m now))) now2
      = withArtifactDefaults region m now := rfl

/-- C7: normalization is idempotent — re-feeding the output of
`ensureBandSummary`, `ensureBandTimeseries`, or `withArtifactDefaults` to the
same normalizer (with any later clock reading) returns it unchanged, so
normalizing twice equals normalizing once. -/
theorem normalization_idempotent :
    (∀ map : Option (List (String × RawVal BandSummaryTable)),
      ensureBandSummary (some (bandMapToRaw (ensureBandSummary map))) = ensureBandSummary map)
    ∧ (∀ (T : Type) (map : Option (List (String × RawVal T))),
      ensureBandTimeseries (some (bandMapToRaw (ensureBandTimeseries map)))
        = ensureBandTimeseries map)
    ∧ (∀ (region now now2 : String) (m : Option RawManifest),
      withArtifactDefaults region (some (manifestToRaw (withArtifactDefaults region m now))) now2
        = withArtifactDefaults region m now) :=
  ⟨ensureBandSummary_idem, fun _ => ensureBandTimeseries_idem, withArtifactDefaults_retract⟩

/-- C1 (amended): every band-keyed map of a resolved bundle contains at least
the three canonical band keys, each bound to a list (empty by default); extra
keys from the source file or the synthetic legacy pseudo-bands may also be
present. -/
theorem resolve_band_keys_present (region now : String) (fs : RegionFS)
    (b : String) (hb : b ∈ BANDS) :
    (List.lookup b (resolveRegionBundleR region fs now).1.stationSummary).isSome
    ∧ (List.lookup b (resolveRegionBundleR region fs now).1.modelSummary).isSome
    ∧ (List.lookup b (resolveRegionBundleR region fs now).1.stationTimeseries).isSome
    ∧ (List.lookup b (resolveRegionBundleR region fs now).1.modelTimeseries).isSome := by
  cases hS : readJsonIfPresent fs.summaryJson with
  | some summaryData =>
    simp only [resolveRegionBundleR, loadStructuredBundleR, hS]
    exact ⟨bands_present_ensureBandSummary _ b hb, bands_present_ensureBandSummary _ b hb,
      bands_present_ensureBandTimeseries _ b hb, bands_present_ensureBandTimeseries _ b hb⟩
  | none =>
    cases hB : readJsonIfPresent fs.bundleJson with
    | some payload =>
      simp only [resolveRegionBundleR, loadStructuredBundleR, loadBundleJsonR, hS, hB]
      exact ⟨bands_present_ensureBandSummary _ b hb, bands_present_ensureBandSummary _ b hb,
        bands_present_ensureBandTimeseries _ b hb, bands_present_ensureBandTimeseries _ b hb⟩
    | none =>
      simp only [resolveRegionBundleR, loadStructuredBundleR, loadBundleJsonR,
        loadDiscreteBundleR, hS, hB]
      cases hW : (loadWeatherStationsR region fs).1 with
      | nil =>
        simp only [hW]
        exact ⟨bands_present_ensureBandSummary _ b hb, bands_present_ensureBandSummary _ b hb,
          bands_present_ensureBandTimeseries _ b hb, bands_present_ensureBandTimeseries _ b hb⟩
      | cons w ws =>
        simp only [hW]
        exact ⟨bands_present_ensureBandSummary _ b hb, bands_present_ensureBandSummary _ b hb,
          bands_present_ensureBandTimeseries _ b hb, bands_present_ensureBandTimeseries _ b hb⟩

/-- C1 (counterexample): on a legacy bundle with weather-station rows, the
resolved bundle's station-summary map carries the synthetic `legacy` key in
addition to the three canonical band keys, so it does not contain exactly the
canonical keys. -/
theorem resolve_band_keys_counterexample :
    ((resolveRegionBundleR "alpine" fsLegacyC1 "t0").1.stationSummary.map Prod.fst)
      = ["legacy", "above_treeline", "treeline", "below_treeline"]
    ∧ "legacy" ∈ ((resolveRegionBundleR "alpine" fsLegacyC1 "t0").1.stationSummary.map Prod.fst)
    ∧ "legacy" ∉ BANDS := by
  refine ⟨by decide, by decide, by decide⟩

/-- C3: resolving a region with literally zero files present returns (never
throws) the synthesized bundle: manifest version `v0`, run time from the
clock, default artifact locators and tile base, null forecast and summary,
empty avalanche list, and all band maps holding only the three empty bands. -/
theorem resolve_empty_returns_default (region now : String) :
    (resolveRegionBundleR region emptyRegionFS now).1 = defaultRegionBundle region now := by
  have hf : ∀ m : Manifest, (loadForecastR m emptyRegionFS).1 = none := by
    intro m
    unfold loadForecastR
    cases resolvePublicAsset (some m.artifacts.forecast_json) <;>
      simp [emptyRegionFS, readJsonIfPresent]
  have hs : ∀ m : Manifest, (loadSummaryR m emptyRegionFS).1 = none := by
    intro m
    unfold loadSummaryR
    cases resolvePublicAsset (some m.artifacts.summary_json) <;>
      simp [emptyRegionFS, readJsonIfPresent]
  simp [resolveRegionBundleR, loadStructuredBundleR, loadBundleJsonR, loadDiscreteBundleR,
    loadManifestR, loadAvalanchesR, loadWeatherStationsR, extractAvalancheArray,
    emptyRegionFS, readJsonIfPresent, readCsvIfPresent, hf, hs, withArtifactDefaults,
    defaultRegionBundle, ensureBandSummary, ensureBandTimeseries, ensureBandStep,
    coerceBandEntry, BANDS, List.lookup]
  exact ⟨hf _, hs _⟩

/-- C2: loader priority is fixed.  When the structured loader succeeds its
bundle is returned and its reads are the only reads; the legacy-bundle loader
result is used only when the structured loader returned null; the discrete
path runs only when both returned null. -/
theorem loader_priority (region now : String) (fs : RegionFS) :
    (∀ b n, loadStructuredBundleR region fs now = (some b, n) →
      resolveRegionBundleR region fs now = (b, n))
    ∧ (∀ n₁ b n₂, loadStructuredBundleR region fs now = (none, n₁) →
      loadBundleJsonR region fs now = (some b, n₂) →
      resolveRegionBundleR region fs now = (b, n₁ + n₂))
    ∧ (∀ n₁ n₂, loadStructuredBundleR region fs now = (none, n₁) →
      loadBundleJsonR region fs now = (none, n₂) →
      resolveRegionBundleR region fs now
        = ((loadDiscreteBundleR region fs now).1,
           n₁ + n₂ + (loadDiscreteBundleR region fs now).2)) := by
  refine ⟨?_, ?_, ?_⟩
  · intro b n h
    simp [resolveRegionBundleR, h]
  · intro n₁ b n₂ h₁ h₂
    simp [resolveRegionBundleR, h₁, h₂]
  · intro n₁ n₂ h₁ h₂
    simp [resolveRegionBundleR, h₁, h₂]

theorem loader_priority_witness :
    resolveRegionBundleR "alpine" fsBothC2 "t0"
      = ((loadStructuredBundleR "alpine" fsBothC2 "t0").1.getD
          (defaultRegionBundle "alpine" "t0"), 2) :=
  (loader_priority "alpine" "t0" fsBothC2).1
    ((loadStructuredBundleR "alpine" fsBothC2 "t0").1.getD (defaultRegionBundle "alpine" "t0"))
    2 (by decide)

theorem loadStructuredBundleR_congr (region now : String) {fs₁ fs₂ : RegionFS}
    (h1 : readJsonIfPresent fs₁.summaryJson = readJsonIfPresent fs₂.summaryJson)
    (h2 : readJsonIfPresent fs₁.timeseriesJson = readJsonIfPresent fs₂.timeseriesJson) :
    loadStructuredBundleR region fs₁ now = loadStructuredBundleR region fs₂ now := by
  simp only [loadStructuredBundleR, h1, h2]

theorem loadBundleJsonR_congr (region now : String) {fs₁ fs₂ : RegionFS}
    (h3 : readJsonIfPresent fs₁.bundleJson = readJsonIfPresent fs₂.bundleJson) :
    loadBundleJsonR region fs₁ now = loadBundleJsonR region fs₂ now := by
  simp only [loadBundleJsonR, h3]

theorem loadManifestR_congr (region now : String) {fs₁ fs₂ : RegionFS}
    (h4 : readJsonIfPresent fs₁.manifestJson = readJsonIfPresent fs₂.manifestJson) :
    loadManifestR region fs₁ now = loadManifestR region fs₂ now := by
  simp only [loadManifestR, h4]

theorem loadAvalanchesR_congr (region : String) {fs₁ fs₂ : RegionFS}
    (h5 : readJsonIfPresent fs₁.sharedAvalanches = readJsonIfPresent fs₂.sharedAvalanches)
    (h6 : readJsonIfPresent fs₁.regionalAvalanches = readJsonIfPresent fs₂.regionalAvalanches) :
    loadAvalanchesR region fs₁ = loadAvalanchesR region fs₂ := by
  simp only [loadAvalanchesR, h5, h6]

theorem loadWeatherStationsR_congr (region : String) {fs₁ fs₂ : RegionFS}
    (h7 : readCsvIfPresent fs₁.sharedWeatherCsv = readCsvIfPresent fs₂.sharedWeatherCsv)
    (h8 : readCsvIfPresent fs₁.regionalWeatherCsv = readCsvIfPresent fs₂.regionalWeatherCsv) :
    loadWeatherStationsR region fs₁ = loadWeatherStationsR region fs₂ := by
  simp only [loadWeatherStationsR, h7, h8]

theorem loadForecastR_congr (m : Manifest) {fs₁ fs₂ : RegionFS}
    (h9 : ∀ p, readJsonIfPresent (fs₁.forecastAssets p) = readJsonIfPresent (fs₂.forecastAssets p)) :
    loadForecastR m fs₁ = loadForecastR m fs₂ := by
  unfold loadForecastR
  cases resolvePublicAsset (some m.artifacts.forecast_json) <;> simp [h9]

theorem loadSummaryR_congr (m : Manifest) {fs₁ fs₂ : RegionFS}
    (h10 : ∀ p, readJsonIfPresent (fs₁.summaryAssets p) = readJsonIfPresent (fs₂.summaryAssets p)) :
    loadSummaryR m fs₁ = loadSummaryR m fs₂ := by
  unfold loadSummaryR
  cases resolvePublicAsset (some m.artifacts.summary_json) <;> simp [h10]

/-- The resolver observes the filesystem only through its reads: filesystems
indistinguishable read-by-read resolve identically. -/
theorem resolveRegionBundleR_congr (region now : String) {fs₁ fs₂ : RegionFS}
    (h1 : readJsonIfPresent fs₁.summaryJson = readJsonIfPresent fs₂.summaryJson)
    (h2 : readJsonIfPresent fs₁.timeseriesJson = readJsonIfPresent fs₂.timeseriesJson)
    (h3 : readJsonIfPresent fs₁.bundleJson = readJsonIfPresent fs₂.bundleJson)
    (h4 : readJsonIfPresent fs₁.manifestJson = readJsonIfPresent fs₂.manifestJson)
    (h5 : readJsonIfPresent fs₁.sharedAvalanches = readJsonIfPresent fs₂.sharedAvalanches)
    (h6 : readJsonIfPresent fs₁.regionalAvalanches = readJsonIfPresent fs₂.regionalAvalanches)
    (h7 : readCsvIfPresent fs₁.sharedWeatherCsv = readCsvIfPresent fs₂.sharedWeatherCsv)
    (h8 : readCsvIfPresent fs₁.regionalWeatherCsv = readCsvIfPresent fs₂.regionalWeatherCsv)
    (h9 : ∀ p, readJsonIfPresent (fs₁.forecastAssets p) = readJsonIfPresent (fs₂.forecastAssets p))
    (h10 : ∀ p, readJsonIfPresent (fs₁.summaryAssets p) = readJsonIfPresent (fs₂.summaryAssets p)) :
    resolveRegionBundleR region fs₁ now = resolveRegionBundleR region fs₂ now := by
  have hF : ∀ m, loadForecastR m fs₁ = loadForecastR m fs₂ :=
    fun m => loadForecastR_congr m h9
  have hSm : ∀ m, loadSummaryR m fs₁ = loadSummaryR m fs₂ :=
    fun m => loadSummaryR_congr m h10
  have hD : loadDiscreteBundleR region fs₁ now = loadDiscreteBundleR region fs₂ now := by
    simp only [loadDiscreteBundleR, loadManifestR_congr region now h4, hF, hSm,
      loadAvalanchesR_congr region h5 h6, loadWeatherStationsR_congr region h7 h8]
  simp only [resolveRegionBundleR, loadStructuredBundleR_congr region now h1 h2,
    loadBundleJsonR_congr region now h3, hD]

/-- C4: a format loader returns null exactly when its required top-level file
did not yield a parse (absent or malformed); and corrupting any single data
file is observationally identical to deleting it — every resolution result,
including its read count, is unchanged. -/
theorem malformed_is_absent (region now : String) (fs : RegionFS) :
    ((loadStructuredBundleR region fs now).1 = none ↔ readJsonIfPresent fs.summaryJson = none)
    ∧ ((loadBundleJsonR region fs now).1 = none ↔ readJsonIfPresent fs.bundleJson = none)
    ∧ (∀ slot : DataSlot,
        resolveRegionBundleR region (spoilSlot fs slot) now
          = resolveRegionBundleR region (blankSlot fs slot) now) := by
  refine ⟨?_, ?_, ?_⟩
  · cases h : readJsonIfPresent fs.summaryJson <;> simp [loadStructuredBundleR, h]
  · cases h : readJsonIfPresent fs.bundleJson <;> simp [loadBundleJsonR, h]
  · intro slot
    cases slot with
    | forecastAsset p =>
      refine resolveRegionBundleR_congr region now rfl rfl rfl rfl rfl rfl rfl rfl ?_ (fun _ => rfl)
      intro q
      simp only [spoilSlot, blankSlot]
      by_cases hq : (q == p) = true <;> simp [hq, readJsonIfPresent]
    | summaryAsset p =>
      refine resolveRegionBundleR_congr region now rfl rfl rfl rfl rfl rfl rfl rfl (fun _ => rfl) ?_
      intro q
      simp only [spoilSlot, blankSlot]
      by_cases hq : (q == p) = true <;> simp [hq, readJsonIfPresent]
    | structuredSummary =>
      exact resolveRegionBundleR_congr region now rfl rfl rfl rfl rfl rfl rfl rfl
        (fun _ => rfl) (fun _ => rfl)
    | structuredTimeseries =>
      exact resolveRegionBundleR_congr region now rfl rfl rfl rfl rfl rfl rfl rfl
        (fun _ => rfl) (fun _ => rfl)
    | legacyBundle =>
      exact resolveRegionBundleR_congr region now rfl rfl rfl rfl rfl rfl rfl rfl
        (fun _ => rfl) (fun _ => rfl)
    | manifestFile =>
      exact resolveRegionBundleR_congr region now rfl rfl rfl rfl rfl rfl rfl rfl
        (fun _ => rfl) (fun _ => rfl)
    | sharedAvalancheFile =>
      exact resolveRegionBundleR_congr region now rfl rfl rfl rfl rfl rfl rfl rfl
        (fun _ => rfl) (fun _ => rfl)
    | regionalAvalancheFile =>
      exact resolveRegionBundleR_congr region now rfl rfl rfl rfl rfl rfl rfl rfl
        (fun _ => rfl) (fun _ => rfl)
    | sharedWeatherFile =>
      exact resolveRegionBundleR_congr region now rfl rfl rfl rfl rfl rfl rfl rfl
        (fun _ => rfl) (fun _ => rfl)
    | regionalWeatherFile =>
      exact resolveRegionBundleR_congr region now rfl rfl rfl rfl rfl rfl rfl rfl
        (fun _ => rfl) (fun _ => rfl)

theorem strEndsWith_append (pre suf : String) : strEndsWith (pre ++ suf) suf = true := by
  unfold strEndsWith
  rw [String.data_append, List.length_append, Nat.add_sub_cancel, List.drop_left]
  exact beq_self_eq_true _

/-- The per-region CSV path always passes the source's `endsWith` check. -/
theorem regional_endsWith (region : String) :
    strEndsWith (regionalWeatherPath region) (region ++ "/weather_station.csv") = true := by
  unfold regionalWeatherPath
  rw [String.append_assoc]
  exact strEndsWith_append _ _

/-- C6: avalanche loading is union-then-filter.  With a shared file and a
per-region file both parsed as arrays, the result is the concatenation of the
region-matching records of each (its length is the sum of the two filtered
lengths), and every returned record carries a matching region tag, so records
tagged for any other region are excluded. -/
theorem avalanche_union_filter (region : String) (fs : RegionFS)
    (sa ra : List AvalancheObservation)
    (hS : readJsonIfPresent fs.sharedAvalanches = some (AvSource.jarr sa))
    (hR : readJsonIfPresent fs.regionalAvalanches = some (AvSource.jarr ra)) :
    (loadAvalanchesR region fs).1
      = sa.filter (fun e => normalizeRegion e.region == normalizeRegion (some region))
        ++ ra.filter (fun e => normalizeRegion e.region == normalizeRegion (some region))
    ∧ (loadAvalanchesR region fs).1.length
      = (sa.filter (fun e => normalizeRegion e.region == normalizeRegion (some region))).length
        + (ra.filter (fun e => normalizeRegion e.region == normalizeRegion (some region))).length
    ∧ (∀ e ∈ (loadAvalanchesR region fs).1,
        normalizeRegion e.region = normalizeRegion (some region)) := by
  have h1 : (loadAvalanchesR region fs).1
      = (sa ++ ra).filter (fun e => normalizeRegion e.region == normalizeRegion (some region)) := by
    simp [loadAvalanchesR, hS, hR, extractAvalancheArray]
  refine ⟨?_, ?_, ?_⟩
  · rw [h1, List.filter_append]
  · rw [h1, List.filter_append, List.length_append]
  · intro e he
    rw [h1] at he
    exact beq_iff_eq.mp (List.mem_filter.mp he).2

theorem avalanche_union_filter_witness :
    (loadAvalanchesR "alpine" fsAvyC6).1.length = 3
    ∧ (∀ e ∈ (loadAvalanchesR "alpine" fsAvyC6).1,
        normalizeRegion e.region = normalizeRegion (some "alpine")) :=
  ⟨((avalanche_union_filter "alpine" fsAvyC6 sharedAvyC6 regionalAvyC6 rfl rfl).2.1).trans
      (by decide),
   (avalanche_union_filter "alpine" fsAvyC6 sharedAvyC6 regionalAvyC6 rfl rfl).2.2⟩

/-- C5 (counterexample): weather-station loading is not a union.  The
per-region CSV holds a row tagged for the requested region, yet the result
contains only the shared CSV's rows, because a non-empty shared match returns
immediately. -/
theorem weather_union_counterexample :
    (loadWeatherStationsR "alpine" fsWeatherC5).1 = [rowSharedC5]
    ∧ readCsvIfPresent fsWeatherC5.regionalWeatherCsv = some [rowRegionalC5]
    ∧ normalizeRegion (jsCell (List.lookup "region" rowRegionalC5))
        = normalizeRegion (some "alpine")
    ∧ rowRegionalC5 ∉ (loadWeatherStationsR "alpine" fsWeatherC5).1 := by
  refine ⟨by decide, rfl, by decide, by decide⟩

/-- C5 (amended): weather-station rows are not unioned.  Every returned row is
tagged for the requested region; when the shared CSV parses and has at least
one matching row, the result is exactly those shared matches (the per-region
CSV is never consulted); the per-region CSV's matches are returned only on
fallthrough, for example when the shared CSV is absent or malformed. -/
theorem weather_shared_preferred (region : String) (fs : RegionFS) :
    (∀ row ∈ (loadWeatherStationsR region fs).1,
        normalizeRegion (jsCell (List.lookup "region" row)) = normalizeRegion (some region))
    ∧ (∀ rows, readCsvIfPresent fs.sharedWeatherCsv = some rows →
        rows.filter (fun row =>
            normalizeRegion (jsCell (List.lookup "region" row)) == normalizeRegion (some region))
          ≠ [] →
        (loadWeatherStationsR region fs).1
          = rows.filter (fun row =>
              normalizeRegion (jsCell (List.lookup "region" row)) == normalizeRegion (some region)))
    ∧ (readCsvIfPresent fs.sharedWeatherCsv = none →
        ∀ rrows, readCsvIfPresent fs.regionalWeatherCsv = some rrows →
        (loadWeatherStationsR region fs).1
          = rrows.filter (fun row =>
              normalizeRegion (jsCell (List.lookup "region" row)) == normalizeRegion (some region))) := by
  refine ⟨?_, ?_, ?_⟩
  · intro row hrow
    have hcases :
        (loadWeatherStationsR region fs).1 = []
        ∨ ∃ rows : List WeatherStationRow, (loadWeatherStationsR region fs).1
            = rows.filter (fun row =>
                normalizeRegion (jsCell (List.lookup "region" row)) == normalizeRegion (some region)) := by
      unfold loadWeatherStationsR
      cases h7 : readCsvIfPresent fs.sharedWeatherCsv with
      | none =>
        cases h8 : readCsvIfPresent fs.regionalWeatherCsv with
        | none => simp
        | some rrows =>
          simp only
          split
          · exact Or.inr ⟨rrows, rfl⟩
          · exact Or.inl rfl
      | some rows =>
        simp only
        split
        · exact Or.inr ⟨rows, rfl⟩
        · cases h8 : readCsvIfPresent fs.regionalWeatherCsv with
          | none => simp
          | some rrows =>
            simp only
            split
            · exact Or.inr ⟨rrows, rfl⟩
            · exact Or.inl rfl
    rcases hcases with h | ⟨rows, h⟩
    · rw [h] at hrow
      cases hrow
    · rw [h] at hrow
      exact beq_iff_eq.mp (List.mem_filter.mp hrow).2
  · intro rows h7 hne
    have hlen : ((rows.filter (fun row =>
        normalizeRegion (jsCell (List.lookup "region" row)) == normalizeRegion (some region))).length
          != 0) = true := by
      refine bne_iff_ne.mpr ?_
      simpa [List.length_eq_zero] using hne
    simp [loadWeatherStationsR, h7, hlen]
  · intro h7 rrows h8
    simp [loadWeatherStationsR, h7, h8, regional_endsWith region]

theorem weather_shared_preferred_witness :
    (loadWeatherStationsR "alpine" fsWeatherC5).1 = [rowSharedC5] :=
  (((weather_shared_preferred "alpine" fsWeatherC5).2.1 [rowSharedC5] rfl (by decide)).trans
    (by decide))

theorem lookup_cacheSet_self (key : String) (value : RegionBundle)
    (cache : List (String × RegionBundle)) :
    List.lookup key (cacheSet key value cache) = some value := by
  induction cache with
  | nil => simp [cacheSet, List.lookup]
  | cons p rest ih =>
    cases p with
    | mk k v =>
      cases hk : (k == key) with
      | true =>
        have hk2 : (key == k) = true := by
          rw [beq_iff_eq] at hk ⊢
          exact hk.symm
        simp [cacheSet, hk, List.lookup, hk2]
      | false =>
        have hk2 : (key == k) = false := by
          rw [beq_eq_false_iff_ne] at hk ⊢
          exact fun h => hk h.symm
        simp [cacheSet, hk, List.lookup, hk2, ih]

/-- C9: under production mode the first resolved bundle is stored under the
lowercased region key and any subsequent call returns that exact cached bundle
with zero disk reads (whatever the disk now holds); on a cache miss the call
stores the freshly resolved bundle; under development mode nothing is cached
and every call recomputes from the current filesystem, so an on-disk change is
reflected by the next call. -/
theorem cache_behavior (rp now1 now2 : String) (fs fs2 : RegionFS)
    (cache : List (String × RegionBundle)) :
    (loadRegionBundleR true rp fs2 now2 (loadRegionBundleR true rp fs now1 cache).2.1
        = ((loadRegionBundleR true rp fs now1 cache).1,
           (loadRegionBundleR true rp fs now1 cache).2.1, 0))
    ∧ (List.lookup (strToLower rp) cache = none →
        loadRegionBundleR true rp fs now1 cache
          = ((resolveRegionBundleR (strToLower rp) fs now1).1,
             cacheSet (strToLower rp) (resolveRegionBundleR (strToLower rp) fs now1).1 cache,
             (resolveRegionBundleR (strToLower rp) fs now1).2))
    ∧ (loadRegionBundleR false rp fs2 now2 cache
        = ((resolveRegionBundleR (strToLower rp) fs2 now2).1, cache,
           (resolveRegionBundleR (strToLower rp) fs2 now2).2)) := by
  refine ⟨?_, ?_, ?_⟩
  · cases h : List.lookup (strToLower rp) cache with
    | some cached => simp [loadRegionBundleR, h]
    | none => simp [loadRegionBundleR, h, lookup_cacheSet_self]
  · intro h
    simp [loadRegionBundleR, h]
  · simp [loadRegionBundleR]

theorem cache_behavior_witness :
    loadRegionBundleR true "Alpine" emptyRegionFS "t0" []
      = ((resolveRegionBundleR (strToLower "Alpine") emptyRegionFS "t0").1,
         cacheSet (strToLower "Alpine") (resolveRegionBundleR (strToLower "Alpine") emptyRegionFS "t0").1 [],
         (resolveRegionBundleR (strToLower "Alpine") emptyRegionFS "t0").2) :=
  (cache_behavior "Alpine" "t0" "t0" emptyRegionFS emptyRegionFS []).2.1 rfl

theorem splitSlashAux_word (w rest : List Char) (acc : List Char)
    (hw : ∀ c ∈ w, (c == '/') = false) :
    splitSlashAux acc (w ++ '/' :: rest) = (acc.reverse ++ w) :: splitSlashAux [] rest := by
  induction w generalizing acc with
  | nil => simp [splitSlashAux]
  | cons c w2 ih =>
    have hc := hw c (List.mem_cons_self c w2)
    simp only [List.cons_append, splitSlashAux, hc, Bool.false_eq_true, if_false]
    rw [show w2.append ('/' :: rest) = w2 ++ '/' :: rest from rfl,
      ih (c :: acc) (fun x hx => hw x (List.mem_cons_of_mem c hx))]
    simp

theorem normSegsAux_no_dotdot (segs : List (List Char)) :
    ∀ stack, (∀ s ∈ segs, s ≠ ['.', '.']) →
      ∃ tl, normSegsAux stack segs = stack.reverse ++ tl := by
  induction segs with
  | nil =>
    intro stack _
    exact ⟨[], by simp [normSegsAux]⟩
  | cons seg rest ih =>
    intro stack h
    unfold normSegsAux
    by_cases h1 : seg = [] ∨ seg = ['.']
    · rw [if_pos h1]
      exact ih stack (fun s hs => h s (List.mem_cons_of_mem seg hs))
    · rw [if_neg h1, if_neg (h seg (List.mem_cons_self seg rest))]
      obtain ⟨tl, htl⟩ := ih (seg :: stack) (fun s hs => h s (List.mem_cons_of_mem seg hs))
      refine ⟨seg :: tl, ?_⟩
      rw [htl]
      simp

theorem strStartsWith_slash (p : String) (h : strStartsWith p "/" = true) :
    ∃ t, p.data = '/' :: t := by
  unfold strStartsWith at h
  cases hd : p.data with
  | nil =>
    rw [hd] at h
    simp [List.isPrefixOf] at h
  | cons c t =>
    rw [hd] at h
    simp [List.isPrefixOf] at h
    exact ⟨t, by rw [h]⟩

theorem joinPublic_under_public (cl : String)
    (hno : ∀ s ∈ splitSlashAux [] cl.data, s ≠ ['.', '.']) :
    joinPublic cl = "public" ∨ ∃ rest, joinPublic cl = "public/" ++ rest := by
  by_cases hcl : (cl == "") = true
  · rw [beq_iff_eq] at hcl
    subst hcl
    left
    decide
  · unfold joinPublic
    simp only [hcl, Bool.false_eq_true, if_false]
    rw [splitSlashAux_word "public".data cl.data [] (by decide)]
    simp only [List.reverse_nil, List.nil_append]
    have hstep : normSegsAux [] ("public".data :: splitSlashAux [] cl.data)
        = normSegsAux ["public".data] (splitSlashAux [] cl.data) := by
      cases splitSlashAux [] cl.data with
      | nil => rfl
      | cons s rest => rfl
    rw [hstep]
    obtain ⟨tl, htl⟩ := normSegsAux_no_dotdot (splitSlashAux [] cl.data) ["public".data] hno
    rw [htl]
    simp only [List.reverse_cons, List.reverse_nil, List.nil_append, List.singleton_append]
    cases tl with
    | nil =>
      left
      decide
    | cons f fs =>
      right
      refine ⟨String.mk (joinWith '/' (f :: fs)), ?_⟩
      apply String.ext
      show joinWith '/' ("public".data :: f :: fs)
        = ("public/" ++ String.mk (joinWith '/' (f :: fs))).data
      rw [String.data_append]
      show "public".data ++ '/' :: joinWith '/' (f :: fs)
        = "public/".data ++ joinWith '/' (f :: fs)
      rw [show ("public/").data = "public".data ++ ['/'] by decide, List.append_assoc]
      rfl

/-- C10 (counterexample): path normalization lets a `..`-bearing locator
escape the `public/` directory and still be read.  The locator
`../secret.json` resolves to `secret.json` — a path that neither is `public`
nor lies under `public/` — and `loadForecast` then reads that file. -/
theorem resolve_public_escape_counterexample :
    resolvePublicAsset (some "../secret.json") = some "secret.json"
    ∧ strStartsWith "secret.json" "public/" = false
    ∧ "secret.json" ≠ "public"
    ∧ (¬∃ rest : String, "secret.json" = "public/" ++ rest)
    ∧ loadForecastR escapeManifestC10 fsEscapeC10 = (some escapeForecastC10, 1) := by
  refine ⟨by decide, by decide, by decide, ?_, by decide⟩
  rintro ⟨rest, hrest⟩
  have hdata := congrArg String.data hrest
  rw [String.data_append] at hdata
  simp at hdata

/-- C10 (amended): locators that are absolute http or https URLs
(case-insensitively) are never fetched — `resolvePublicAsset` rejects them and
`loadForecast` / `loadSummary` return null with zero reads — and a locator
that does resolve maps to `path.join(cwd, 'public', cleaned)`, which lies
under the local `public/` directory whenever the locator contains no `..`
segment (a `..` segment can climb out of `public/`). -/
theorem remote_locators_never_fetched (p : String) (m : Manifest) (fs : RegionFS) :
    ((strToLower (strTake p 5) = "http:" ∨ strToLower (strTake p 6) = "https:") →
      resolvePublicAsset (some p) = none)
    ∧ ((strToLower (strTake m.artifacts.forecast_json 5) = "http:"
        ∨ strToLower (strTake m.artifacts.forecast_json 6) = "https:") →
      loadForecastR m fs = (none, 0))
    ∧ ((strToLower (strTake m.artifacts.summary_json 5) = "http:"
        ∨ strToLower (strTake m.artifacts.summary_json 6) = "https:") →
      loadSummaryR m fs = (none, 0))
    ∧ (∀ q, (∀ s ∈ splitSlashAux [] p.data, s ≠ ['.', '.']) →
        resolvePublicAsset (some p) = some q →
        q = "public" ∨ ∃ rest, q = "public/" ++ rest) := by
  have hcore : ∀ s : String,
      (strToLower (strTake s 5) = "http:" ∨ strToLower (strTake s 6) = "https:") →
      resolvePublicAsset (some s) = none := by
    intro s h
    have hne : (s == "") = false := by
      rw [beq_eq_false_iff_ne]
      intro hs
      subst hs
      rcases h with h | h <;> exact absurd h (by decide)
    have hhttp : isHttpUrl s = true := by
      unfold isHttpUrl
      rcases h with h | h <;> simp [h]
    simp [resolvePublicAsset, hne, hhttp]
  refine ⟨hcore p, ?_, ?_, ?_⟩
  · intro h
    unfold loadForecastR
    rw [hcore m.artifacts.forecast_json h]
  · intro h
    unfold loadSummaryR
    rw [hcore m.artifacts.summary_json h]
  · intro q hno hq
    unfold resolvePublicAsset at hq
    by_cases h1 : (p == "") = true
    · simp [h1] at hq
    · by_cases h2 : isHttpUrl p = true
      · simp [h1, h2] at hq
      · simp only [h1, h2, Bool.false_eq_true, if_false, Option.some.injEq] at hq
        cases hsw : strStartsWith p "/" with
        | false =>
          rw [hsw] at hq
          simp only [Bool.false_eq_true, if_false] at hq
          rw [← hq]
          exact joinPublic_under_public p hno
        | true =>
          rw [hsw] at hq
          simp only [if_true] at hq
          obtain ⟨t, hpt⟩ := strStartsWith_slash p hsw
          have hno2 : ∀ s ∈ splitSlashAux [] (strDrop p 1).data, s ≠ ['.', '.'] := by
            intro s hs
            refine hno s ?_
            rw [hpt]
            have hdrop : (strDrop p 1).data = t := by
              show p.data.drop 1 = t
              rw [hpt]
              rfl
            rw [hdrop] at hs
            show s ∈ splitSlashAux [] ('/' :: t)
            simp only [splitSlashAux, beq_self_eq_true, if_true, List.reverse_nil]
            exact List.mem_cons_of_mem [] hs
          rw [← hq]
          exact joinPublic_under_public (strDrop p 1) hno2

theorem remote_locators_never_fetched_witness :
    resolvePublicAsset (some "https://cdn.example.com/forecast.json") = none
    ∧ loadForecastR remoteManifestC10 emptyRegionFS = (none, 0)
    ∧ loadSummaryR remoteManifestC10 emptyRegionFS = (none, 0)
    ∧ ("public/data/alpine/forecast.json" = "public"
        ∨ ∃ rest, "public/data/alpine/forecast.json" = "public/" ++ rest) :=
  ⟨(remote_locators_never_fetched "https://cdn.example.com/forecast.json"
      remoteManifestC10 emptyRegionFS).1 (Or.inr (by decide)),
   (remote_locators_never_fetched "https://cdn.example.com/forecast.json"
      remoteManifestC10 emptyRegionFS).2.1 (Or.inr (by decide)),
   (remote_locators_never_fetched "https://cdn.example.com/forecast.json"
      remoteManifestC10 emptyRegionFS).2.2.1 (Or.inl (by decide)),
   (remote_locators_never_fetched "/data/alpine/forecast.json"
      remoteManifestC10 emptyRegionFS).2.2.2 "public/data/alpine/forecast.json"
     (by decide) (by decide)⟩

theorem length_dropWhile_le {α : Type} (p : α → Bool) (l : List α) :
    (l.dropWhile p).length ≤ l.length := by
  induction l with
  | nil => simp
  | cons a t ih =>
    rw [List.dropWhile_cons]
    split
    · exact Nat.le_succ_of_le ih
    · exact le_rfl

theorem dropWhile_head_false {α : Type} {p : α → Bool} {l : List α} {c : α} {rest : List α}
    (h : l.dropWhile p = c :: rest) : p c = false := by
  induction l with
  | nil => simp at h
  | cons a t ih =>
    rw [List.dropWhile_cons] at h
    by_cases hp : p a = true
    · rw [if_pos hp] at h
      exact ih h
    · rw [if_neg hp] at h
      injection h with h1 _
      subst h1
      rw [Bool.not_eq_true] at hp
      exact hp

theorem dropWhile_all_false {α : Type} {p : α → Bool} {l : List α}
    (h : ∀ x ∈ l, p x = false) : l.dropWhile p = l := by
  cases l with
  | nil => rfl
  | cons a t =>
    rw [List.dropWhile_cons, h a (List.mem_cons_self a t)]
    simp

theorem collapseGo_true_dropWhile (l : List Char) :
    (collapseGo true l).dropWhile isJsWs = collapseGo true l := by
  induction l with
  | nil => rfl
  | cons c rest ih =>
    cases hc : isJsWs c with
    | true => simpa [collapseGo, hc] using ih
    | false => simp [collapseGo, hc, List.dropWhile_cons]

theorem collapseGo_true_eq (l : List Char) :
    collapseGo true l = collapseGo false (l.dropWhile isJsWs) := by
  induction l with
  | nil => rfl
  | cons c rest ih =>
    cases hc : isJsWs c with
    | true => simpa [collapseGo, hc, List.dropWhile_cons] using ih
    | false => simp [collapseGo, hc, List.dropWhile_cons]

theorem dropWhile_collapseGo_false (l : List Char) :
    (collapseGo false l).dropWhile isJsWs = collapseGo true l := by
  cases l with
  | nil => rfl
  | cons c rest =>
    cases hc : isJsWs c with
    | true =>
      have hsp : isJsWs ' ' = true := rfl
      simp only [collapseGo, hc, if_true, Bool.false_eq_true, if_false]
      rw [List.dropWhile_cons]
      simp only [hsp, if_true]
      exact collapseGo_true_dropWhile rest
    | false => simp [collapseGo, hc, List.dropWhile_cons]

theorem collapseGo_word_head (w m : List Char) (h : ∀ c ∈ w, isJsWs c = false) :
    collapseGo false (w ++ m) = w ++ collapseGo false m := by
  induction w with
  | nil => rfl
  | cons c rest ih =>
    have hc := h c (List.mem_cons_self c rest)
    simp only [List.cons_append, collapseGo, hc, Bool.false_eq_true, if_false]
    rw [show rest.append m = rest ++ m from rfl,
      ih (fun x hx => h x (List.mem_cons_of_mem c hx))]

theorem collapseGo_allWs_true (l : List Char) (h : ∀ c ∈ l, isJsWs c = true) :
    collapseGo true l = [] := by
  induction l with
  | nil => rfl
  | cons c rest ih =>
    simp [collapseGo, h c (List.mem_cons_self c rest),
      ih (fun x hx => h x (List.mem_cons_of_mem c hx))]

theorem trimEnds_eq_trimTrail (l : List Char) :
    trimEnds l = trimTrail (l.dropWhile isJsWs) := rfl

theorem trimTrail_nonws (w : List Char) (h : ∀ c ∈ w, isJsWs c = false) :
    trimTrail w = w := by
  unfold trimTrail
  rw [dropWhile_all_false (fun x hx => h x (List.mem_reverse.mp hx)), List.reverse_reverse]

theorem trimTrail_append_nonempty (a b : List Char) (h : trimTrail b ≠ []) :
    trimTrail (a ++ b) = a ++ trimTrail b := by
  unfold trimTrail at h ⊢
  rw [List.reverse_append, List.dropWhile_append]
  have hb : (b.reverse.dropWhile isJsWs).isEmpty = false := by
    rw [Bool.eq_false_iff]
    intro hemp
    rw [List.isEmpty_iff] at hemp
    rw [hemp] at h
    simp at h
  rw [hb]
  simp only [Bool.false_eq_true, if_false]
  rw [List.reverse_append, List.reverse_reverse]

theorem joinTokens_cons (w : List Char) (ts : List (List Char)) (h : ts ≠ []) :
    joinTokens (w :: ts) = w ++ ' ' :: joinTokens ts := by
  cases ts with
  | nil => cases h rfl
  | cons v rest => rfl

theorem joinTokens_ne_nil (t : List Char) (ts : List (List Char)) (h : t ≠ []) :
    joinTokens (t :: ts) ≠ [] := by
  cases ts with
  | nil => simpa [joinTokens] using h
  | cons v rest => simp [joinTokens]

theorem tokensFuel_congr : ∀ (f g : Nat) (l : List Char), l.length ≤ f → l.length ≤ g →
    tokensFuel f l = tokensFuel g l := by
  intro f
  induction f with
  | zero =>
    intro g l hf _
    have hl : l = [] := by
      cases l with
      | nil => rfl
      | cons a t => simp at hf
    subst hl
    cases g with
    | zero => rfl
    | succ g => rfl
  | succ f ih =>
    intro g l hf hg
    cases g with
    | zero =>
      have hl : l = [] := by
        cases l with
        | nil => rfl
        | cons a t => simp at hg
      subst hl
      rfl
    | succ g =>
      show tokensFuel (f + 1) l = tokensFuel (g + 1) l
      unfold tokensFuel
      cases h : l.dropWhile isJsWs with
      | nil => rfl
      | cons c rest =>
        have hlen : rest.length + 1 ≤ l.length := by
          have h2 := length_dropWhile_le isJsWs l
          rw [h] at h2
          simpa using h2
        have hdrop := length_dropWhile_le (fun x => !isJsWs x) rest
        exact congrArg (List.cons (c :: rest.takeWhile (fun x => !isJsWs x)))
          (ih g (rest.dropWhile (fun x => !isJsWs x)) (by omega) (by omega))

theorem tokensWs_eq (l : List Char) :
    tokensWs l = match l.dropWhile isJsWs with
      | [] => []
      | c :: rest =>
        (c :: rest.takeWhile (fun x => !isJsWs x))
          :: tokensWs (rest.dropWhile (fun x => !isJsWs x)) := by
  rw [show tokensWs l = tokensFuel l.length l from rfl]
  cases h : l.dropWhile isJsWs with
  | nil =>
    cases hl : l.length with
    | zero => rfl
    | succ n =>
      show tokensFuel (n + 1) l = _
      unfold tokensFuel
      rw [h]
  | cons c rest =>
    have hlen : rest.length + 1 ≤ l.length := by
      have h2 := length_dropWhile_le isJsWs l
      rw [h] at h2
      simpa using h2
    cases hl : l.length with
    | zero => omega
    | succ k =>
      show tokensFuel (k + 1) l = _
      unfold tokensFuel
      rw [h]
      have hdrop := length_dropWhile_le (fun x => !isJsWs x) rest
      exact congrArg (List.cons (c :: rest.takeWhile (fun x => !isJsWs x)))
        (show tokensFuel k (rest.dropWhile (fun x => !isJsWs x))
            = tokensWs (rest.dropWhile (fun x => !isJsWs x)) by
          unfold tokensWs
          exact tokensFuel_congr k (rest.dropWhile (fun x => !isJsWs x)).length
            (rest.dropWhile (fun x => !isJsWs x)) (by omega) le_rfl)

theorem trimTrail_collapse_eq_join :
    ∀ (n : Nat) (l : List Char), l.length ≤ n →
      trimTrail (collapseGo true l) = joinTokens (tokensWs l) := by
  intro n
  induction n with
  | zero =>
    intro l hl
    have hnil : l = [] := by
      cases l with
      | nil => rfl
      | cons a t => simp at hl
    subst hnil
    rfl
  | succ n ih =>
    intro l hl
    rw [collapseGo_true_eq l, tokensWs_eq l]
    cases h : l.dropWhile isJsWs with
    | nil => rfl
    | cons c rest =>
      show trimTrail (collapseGo false (c :: rest))
        = joinTokens ((c :: rest.takeWhile (fun x => !isJsWs x))
            :: tokensWs (rest.dropWhile (fun x => !isJsWs x)))
      have hc : isJsWs c = false := dropWhile_head_false h
      have hlen : rest.length + 1 ≤ l.length := by
        have h2 := length_dropWhile_le isJsWs l
        rw [h] at h2
        simpa using h2
      have hwAll : ∀ x ∈ c :: rest.takeWhile (fun x => !isJsWs x), isJsWs x = false := by
        intro x hx
        rcases List.mem_cons.mp hx with hxc | hx
        · subst hxc
          exact hc
        · have := List.mem_takeWhile_imp hx
          simpa using this
      have hcol : collapseGo false (c :: rest)
          = (c :: rest.takeWhile (fun x => !isJsWs x))
            ++ collapseGo false (rest.dropWhile (fun x => !isJsWs x)) := by
        conv_lhs => rw [show c :: rest
          = (c :: rest.takeWhile (fun x => !isJsWs x))
            ++ rest.dropWhile (fun x => !isJsWs x) by
            rw [List.cons_append, List.takeWhile_append_dropWhile]]
        exact collapseGo_word_head _ _ hwAll
      rw [hcol]
      cases htd : tokensWs (rest.dropWhile (fun x => !isJsWs x)) with
      | nil =>
        have hdAll : ∀ x ∈ rest.dropWhile (fun x => !isJsWs x), isJsWs x = true := by
          rw [tokensWs_eq] at htd
          cases hdd : (rest.dropWhile (fun x => !isJsWs x)).dropWhile isJsWs with
          | nil => exact fun x hx => List.dropWhile_eq_nil_iff.mp hdd x hx
          | cons a b =>
            rw [hdd] at htd
            simp at htd
        have hfd : collapseGo false (rest.dropWhile (fun x => !isJsWs x)) = []
            ∨ collapseGo false (rest.dropWhile (fun x => !isJsWs x)) = [' '] := by
          cases hdc : rest.dropWhile (fun x => !isJsWs x) with
          | nil => exact Or.inl rfl
          | cons c2 r2 =>
            right
            have h2 : isJsWs c2 = true := by
              refine hdAll c2 ?_
              rw [hdc]
              exact List.mem_cons_self c2 r2
            have h3 : collapseGo true r2 = [] := by
              refine collapseGo_allWs_true r2 (fun x hx => ?_)
              refine hdAll x ?_
              rw [hdc]
              exact List.mem_cons_of_mem c2 hx
            simp [collapseGo, h2, h3]
        rcases hfd with hfd | hfd <;> rw [hfd]
        · rw [List.append_nil]
          exact trimTrail_nonws _ hwAll
        · show trimTrail ((c :: rest.takeWhile (fun x => !isJsWs x)) ++ [' '])
            = joinTokens [c :: rest.takeWhile (fun x => !isJsWs x)]
          unfold trimTrail
          rw [List.reverse_append]
          show (List.dropWhile isJsWs
            (' ' :: (c :: rest.takeWhile (fun x => !isJsWs x)).reverse)).reverse = _
          rw [List.dropWhile_cons]
          simp only [show isJsWs ' ' = true from rfl, if_true]
          rw [dropWhile_all_false (fun x hx => hwAll x (List.mem_reverse.mp hx)),
            List.reverse_reverse]
          rfl
      | cons t ts =>
        have hdne : rest.dropWhile (fun x => !isJsWs x) ≠ [] := by
          intro hdnil
          rw [hdnil] at htd
          simp [tokensWs, tokensFuel] at htd
        obtain ⟨c2, d2, hd2⟩ : ∃ c2 d2, rest.dropWhile (fun x => !isJsWs x) = c2 :: d2 := by
          cases hdc : rest.dropWhile (fun x => !isJsWs x) with
          | nil => exact absurd hdc hdne
          | cons a b => exact ⟨a, b, rfl⟩
        have hc2 : isJsWs c2 = true := by
          have := dropWhile_head_false hd2
          simpa using this
        have hskip : collapseGo false (c2 :: d2) = ' ' :: collapseGo true d2 := by
          simp [collapseGo, hc2]
        have hd2len : d2.length + 1 ≤ rest.length := by
          have h3 := length_dropWhile_le (fun x => !isJsWs x) rest
          rw [hd2] at h3
          simpa using h3
        have hIH : trimTrail (collapseGo true d2)
            = joinTokens (tokensWs (rest.dropWhile (fun x => !isJsWs x))) := by
          have h4 : trimTrail (collapseGo true (rest.dropWhile (fun x => !isJsWs x)))
              = joinTokens (tokensWs (rest.dropWhile (fun x => !isJsWs x))) := by
            refine ih _ ?_
            have h5 := length_dropWhile_le (fun x => !isJsWs x) rest
            omega
          rw [hd2] at h4
          have h6 : collapseGo true (c2 :: d2) = collapseGo true d2 := by
            simp [collapseGo, hc2]
          rw [h6] at h4
          rw [hd2]
          exact h4
        have htne0 : t ≠ [] := by
          rw [tokensWs_eq] at htd
          cases hdd : (rest.dropWhile (fun x => !isJsWs x)).dropWhile isJsWs with
          | nil =>
            rw [hdd] at htd
            simp at htd
          | cons a b =>
            rw [hdd] at htd
            simp only [List.cons.injEq] at htd
            rw [← htd.1]
            exact List.cons_ne_nil a _
        have hjne : joinTokens (tokensWs (rest.dropWhile (fun x => !isJsWs x))) ≠ [] := by
          rw [htd]
          exact joinTokens_ne_nil t ts htne0
        have htne : trimTrail (collapseGo true d2) ≠ [] := by
          rw [hIH]
          exact hjne
        have hcol2 : collapseGo false (rest.dropWhile (fun x => !isJsWs x))
            = ' ' :: collapseGo true d2 := by
          rw [hd2]
          exact hskip
        have hstep : (c :: rest.takeWhile (fun x => !isJsWs x)) ++ ' ' :: collapseGo true d2
            = ((c :: rest.takeWhile (fun x => !isJsWs x)) ++ [' ']) ++ collapseGo true d2 := by
          rw [List.append_assoc]
          rfl
        rw [hcol2, hstep, trimTrail_append_nonempty _ _ htne, hIH, htd,
          joinTokens_cons _ _ (List.cons_ne_nil t ts), List.append_assoc]
        rfl

/-- The canonical form computed by `normalizeRegion` is exactly the
case-folded, separator-split token list joined with single spaces. -/
theorem normalizeRegionChars_eq_joinTokens (l : List Char) :
    normalizeRegionChars l = joinTokens (tokensWs (lowerSep l)) := by
  unfold normalizeRegionChars
  rw [trimEnds_eq_trimTrail, dropWhile_collapseGo_false]
  exact trimTrail_collapse_eq_join (lowerSep l).length (lowerSep l) le_rfl

/-- C8: region-name matching is case- and separator-insensitive.  Any two
region strings whose case-folded, separator-split token lists agree — that is,
strings differing only in letter case, underscore-versus-space separators, and
surrounding or repeated whitespace — normalize to the same canonical value; in
particular the tags `South_Rockies`, `south rockies`, and `South Rockies` all
match a request for region `south_rockies`. -/
theorem normalizeRegion_case_separator_insensitive (s t : String)
    (h : regionTokens s = regionTokens t) :
    normalizeRegion (some s) = normalizeRegion (some t)
    ∧ normalizeRegion (some "South_Rockies") = normalizeRegion (some "south_rockies")
    ∧ normalizeRegion (some "south rockies") = normalizeRegion (some "south_rockies")
    ∧ normalizeRegion (some "South Rockies") = normalizeRegion (some "south_rockies") := by
  refine ⟨?_, by decide, by decide, by decide⟩
  show String.mk (normalizeRegionChars s.data) = String.mk (normalizeRegionChars t.data)
  unfold regionTokens at h
  rw [normalizeRegionChars_eq_joinTokens, normalizeRegionChars_eq_joinTokens, h]

theorem normalizeRegion_case_separator_witness :
    normalizeRegion (some " SoUTH__Rockies  ") = normalizeRegion (some "south_rockies") :=
  (normalizeRegion_case_separator_insensitive " SoUTH__Rockies  " "south_rockies"
    (by decide)).1

theorem resolve_band_keys_present_witness :
    (List.lookup "treeline" (resolveRegionBundleR "alpine" emptyRegionFS "t0").1.stationSummary).isSome
    ∧ (List.lookup "treeline" (resolveRegionBundleR "alpine" emptyRegionFS "t0").1.modelSummary).isSome
    ∧ (List.lookup "treeline" (resolveRegionBundleR "alpine" emptyRegionFS "t0").1.stationTimeseries).isSome
    ∧ (List.lookup "treeline" (resolveRegionBundleR "alpine" emptyRegionFS "t0").1.modelTimeseries).isSome :=
  resolve_band_keys_present "alpine" "t0" emptyRegionFS "treeline" (by decide)
